import Mathlib

/-!
Verification development for the MLab interpreter core (lexer/parser/evaluator
for a MATLAB-like array language).  The definitions below are shallow
embeddings of the C++ sources: `MLabValue.cpp` (value layer), `MLabParser.cpp`
(recursive-descent parser), `MLabEngine.cpp` (tree-walking evaluator) and
`MLabEnvironment.cpp` (scopes).  Machine doubles (IEEE-754 binary64) are
modelled as exact rationals extended with infinities and NaN; the interpreter
code under study only copies such values and compares them with `0.0` and
with each other, which the model preserves.  Buffers are modelled as lists of
elements (one list entry per stored element, so `bytes = numel * size`
becomes `length = numel`).
-/

namespace MLab

/-- Array dimensions, translated from `Dims` in MLabValue.hpp/.cpp:
three extents `d[0..2]` plus the rank tag `nd`. -/
structure Dims where
  d0 : Nat
  d1 : Nat
  d2 : Nat
  nd : Nat
deriving DecidableEq, Repr

/-- Two-dimensional constructor `Dims(r, c)`: pages default to 1, `nd = 2`. -/
def Dims.mk2 (r c : Nat) : Dims := ⟨r, c, 1, 2⟩

def Dims.rows (d : Dims) : Nat := d.d0

def Dims.cols (d : Dims) : Nat := d.d1

def Dims.pages (d : Dims) : Nat := d.d2

/-- Translated from `Dims::numel`: product of the three extents. -/
def Dims.numel (d : Dims) : Nat := d.d0 * d.d1 * d.d2

/-- Translated from `Dims::isScalar`: exactly one element. -/
def Dims.isScalar (d : Dims) : Bool := d.numel == 1

/-- Translated from `Dims::isEmpty`: zero elements. -/
def Dims.isEmptyD (d : Dims) : Bool := d.numel == 0

/-- Translated from `Dims::isVector`: rank 2 and one extent equal to 1. -/
def Dims.isVector (d : Dims) : Bool := d.nd == 2 && (d.d0 == 1 || d.d1 == 1)

/-- Translated from `Dims::sub2ind(r, c)`: column-major linear index. -/
def Dims.sub2ind (d : Dims) (r c : Nat) : Nat := c * d.d0 + r

/-- IEEE-754 binary64 values modelled as exact rationals together with the
special values `inf`, `-inf` and NaN.  The code fragments embedded here only
copy doubles and compare them against `0.0`, which this model captures. -/
inductive F64 where
  | val (q : ℚ)
  | inf
  | neginf
  | nan
deriving DecidableEq, Repr

/-- IEEE comparison `x == 0.0`: NaN compares unequal to everything, so only a
finite zero passes. -/
def F64.isZero : F64 → Bool
  | .val q => q == 0
  | _ => false

/-- Value kinds, translated from `enum class MType` (reserved integer kinds
omitted: nothing in the embedded code constructs them). -/
inductive MType where
  | EMPTY
  | DOUBLE
  | COMPLEX
  | LOGICAL
  | CHAR
  | CELL
  | STRUCT
  | FUNC_HANDLE
deriving DecidableEq, Repr

/-- Tagged runtime value, translated from `class MValue`.  A buffered kind
carries its `Dims` and an optional buffer (`none` models a null `buffer_`;
`some xs` models an allocated buffer holding `xs.length` elements).  A struct
carries its `std::map<std::string, MValue>` as an association list kept in
strictly increasing key order, which is how `std::map` stores entries. -/
inductive MVal where
  | emptyV
  | doubleV (dims : Dims) (buf : Option (List F64))
  | complexV (dims : Dims) (buf : Option (List (F64 × F64)))
  | logicalV (dims : Dims) (buf : Option (List Nat))
  | charV (dims : Dims) (buf : Option (List Char))
  | cellV (dims : Dims) (cells : List MVal)
  | structV (fields : List (String × MVal))
  | funcHandleV (name : String)

/-- Translated from `mtypeName`. -/
def MVal.mtypeName : MVal → String
  | .emptyV => "empty"
  | .doubleV _ _ => "double"
  | .complexV _ _ => "complex"
  | .logicalV _ _ => "logical"
  | .charV _ _ => "char"
  | .cellV _ _ => "cell"
  | .structV _ => "struct"
  | .funcHandleV _ => "function_handle"

/-- Translated from `MValue::numel` via the stored `dims_` (struct and
function-handle values are created with dims 1x1 by their factories). -/
def MVal.numel : MVal → Nat
  | .emptyV => 0
  | .doubleV d _ => d.numel
  | .complexV d _ => d.numel
  | .logicalV d _ => d.numel
  | .charV d _ => d.numel
  | .cellV d _ => d.numel
  | .structV _ => 1
  | .funcHandleV _ => 1

/-- Translated from `MValue::isScalar`. -/
def MVal.isScalar (v : MVal) : Bool := v.numel == 1

/-- Translated from `MValue::toBool` (MLabValue.cpp lines 558-576).  The
source is an if-chain: scalar logical with buffer; scalar double with buffer;
scalar complex with buffer; then any double with a buffer (scan all elements,
return false on the first zero, else return `numel() > 0`); every remaining
shape throws `Cannot convert <kind> to bool`. -/
def MVal.toBool : MVal → Except String Bool
  | .logicalV d (some xs) =>
    if d.isScalar then .ok (!(xs.headD 0 == 0))
    else .error ("Cannot convert logical to bool")
  | .doubleV d (some xs) =>
    if d.isScalar then .ok (!(xs.headD (.val 0)).isZero)
    else if xs.any F64.isZero then .ok false
    else .ok (decide (0 < d.numel))
  | .complexV d (some xs) =>
    if d.isScalar then
      .ok (!(xs.headD (.val 0, .val 0)).1.isZero || !(xs.headD (.val 0, .val 0)).2.isZero)
    else .error ("Cannot convert complex to bool")
  | v => .error ("Cannot convert " ++ v.mtypeName ++ " to bool")

/-- Translated from `MValue::toScalar` (MLabValue.cpp lines 539-556):
scalar double; scalar complex (error when the imaginary part is nonzero);
scalar logical; scalar char; everything else throws. -/
def MVal.toScalarE : MVal → Except String F64
  | .doubleV d (some xs) =>
    if d.isScalar then .ok (xs.headD (.val 0))
    else .error ("Cannot convert double to scalar")
  | .complexV d (some xs) =>
    if d.isScalar then
      if (xs.headD (.val 0, .val 0)).2.isZero then .ok (xs.headD (.val 0, .val 0)).1
      else .error ("Cannot convert complex with nonzero imaginary part to double scalar")
    else .error ("Cannot convert complex to scalar")
  | .logicalV d (some xs) =>
    if d.isScalar then .ok (.val (if xs.headD 0 == 0 then 0 else 1))
    else .error ("Cannot convert logical to scalar")
  | .charV d (some xs) =>
    if d.isScalar then .ok (.val ((xs.headD (Char.ofNat 0)).toNat : ℚ))
    else .error ("Cannot convert char to scalar")
  | v => .error ("Cannot convert " ++ v.mtypeName ++ " to scalar")

/-- Ordered insertion into a `std::map<std::string, MValue>` represented as an
association list sorted by key: this is the effect of `structData_[name] = v`
(`MValue::field` followed by assignment), keeping keys in increasing
lexicographic order exactly as `std::map` does with `std::string::operator<`
(modelled as the lexicographic order on the strings' character lists). -/
def mapInsert (k : String) (v : MVal) : List (String × MVal) → List (String × MVal)
  | [] => [(k, v)]
  | (k2, v2) :: rest =>
    if k.data < k2.data then (k, v) :: (k2, v2) :: rest
    else if k = k2 then (k, v) :: rest
    else (k2, v2) :: mapInsert k v rest

/-- Field-assignment step on a struct value, translated from
`Engine::resolveFieldLValue` + `Engine::execFieldAssign`: `s.name = v`
inserts into the ordered field map (a non-struct target is replaced by a
fresh struct first). -/
def MVal.fieldAssign (s : MVal) (name : String) (v : MVal) : MVal :=
  match s with
  | .structV fields => .structV (mapInsert name v fields)
  | _ => .structV (mapInsert name v [])

/-- Enumeration order of a struct's fields as used by `Engine::displayValue`
(case `MType::STRUCT`): the iteration order of `structFields()`, i.e. the
order of the underlying `std::map`. -/
def MVal.fieldNames : MVal → List String
  | .structV fields => fields.map Prod.fst
  | _ => []

/-- Double-typed array variable (kind `MType::DOUBLE`): dimensions plus the
allocated column-major buffer, one list entry per element. -/
structure DArr where
  dims : Dims
  data : List F64
deriving DecidableEq, Repr

/-- Translated from `Engine::execDeleteAssign`, case `nargs == 1` on a double
variable (MLabEngine.cpp lines 617-639): mark the in-range selected linear
positions, collect the unmarked elements in buffer (column-major) order, and
shape the result `1 x n` when the source had exactly one row, else `n x 1`. -/
def deleteLinear (var : DArr) (indices : List Nat) : DArr :=
  let remaining :=
    ((List.range var.dims.numel).zip var.data).filterMap
      (fun p => if indices.contains p.1 then none else some p.2)
  let isRow := var.dims.rows == 1
  let n := remaining.length
  { dims := if isRow then Dims.mk2 1 n else Dims.mk2 n 1, data := remaining }

/-- Translated from `MValue::resize` for a 2-D double array (MLabValue.cpp
lines 750-787): allocate a zero-filled `newR x newC` buffer and copy the
overlapping `min` rows of each overlapping column, column by column. -/
def resizeD (v : DArr) (newR newC : Nat) : DArr :=
  { dims := Dims.mk2 newR newC
    data :=
      (List.range (newR * newC)).map (fun i =>
        let r := i % newR
        let c := i / newR
        if r < v.dims.rows && c < v.dims.cols then
          v.data.getD (c * v.dims.rows + r) (.val 0)
        else .val 0) }

/-- Translated from `MValue::ensureSize` (MLabValue.cpp lines 839-859) for a
variable already of double kind: grow to cover `linearIdx` by widening a
vector (or anything with at most one row) into `1 x needed`, otherwise by
adding whole columns while preserving the row count.  (The source's
`MType::EMPTY` branch first turns an empty value into a `1 x 1` zero double;
the claims below always start from a double variable, so that branch is not
reachable here.) -/
def ensureSizeD (v : DArr) (linearIdx : Nat) : DArr :=
  let needed := linearIdx + 1
  if needed > v.dims.numel then
    if v.dims.isVector || v.dims.rows ≤ 1 then resizeD v 1 needed
    else resizeD v v.dims.rows ((needed + v.dims.rows - 1) / v.dims.rows)
  else v

/-- Growth phase of `Engine::execIndexedAssign`, `nargs == 1`: the loop
`for (auto idx : indices) var->ensureSize(idx)`. -/
def growAll (var : DArr) (indices : List Nat) : DArr :=
  indices.foldl (fun acc idx => ensureSizeD acc idx) var

/-- Broadcast loop of `Engine::execIndexedAssign`, scalar right-hand side:
`for (auto idx : indices) data[idx] = sv`. -/
def writeBroadcast (dat : List F64) (indices : List Nat) (sv : F64) : List F64 :=
  indices.foldl (fun d idx => d.set idx sv) dat

/-- Array-source loop of `Engine::execIndexedAssign`, `nargs == 1`, double
right-hand side: `for (i = 0; i < indices.size() && i < rhs.numel(); ++i)
dst[indices[i]] = src[i]` — `zip` performs exactly the same truncation to
the shorter of the two lists. -/
def writeFirstPairs (dat : List F64) (indices : List Nat) (src : List F64) : List F64 :=
  (indices.zip src).foldl (fun d p => d.set p.1 p.2) dat

/-- Translated from `Engine::execIndexedAssign`, case `nargs == 1`, target
variable of double kind (MLabEngine.cpp lines 459-473): resolve-and-grow,
then either broadcast a scalar right-hand side (`toScalar` may throw) or,
when the right-hand side is a double array, copy source elements onto the
selected positions pairwise until either list runs out; any other non-scalar
right-hand side writes nothing.  No count comparison appears anywhere. -/
def execIndexedAssign1 (var : DArr) (indices : List Nat) (rhs : MVal) :
    Except String DArr :=
  let grown := growAll var indices
  if rhs.isScalar then
    match rhs.toScalarE with
    | .error e => .error e
    | .ok sv => .ok { grown with data := writeBroadcast grown.data indices sv }
  else
    match rhs with
    | .doubleV _ (some src) => .ok { grown with data := writeFirstPairs grown.data indices src }
    | _ => .ok grown

/-- Reference-counted byte buffer, translated from `class DataBuffer`
(content plus `refCount_`; the allocator handle is immaterial here). -/
structure Buffer where
  data : List F64
  refCount : Nat
deriving DecidableEq, Repr

/-- The set of live buffers: buffer identity (the C++ `DataBuffer *`) is the
index into this list.  Buffers whose count reaches zero are simply left in
place unreferenced, which is observationally the same as freeing them. -/
abbrev Heap := List Buffer

/-- Value header as relevant to buffer sharing, translated from the
`type_` / `dims_` / `buffer_` fields of `MValue`. -/
structure HVal where
  ty : MType
  dims : Dims
  buf : Option Nat
deriving DecidableEq, Repr

def Heap.bufAt (h : Heap) (b : Nat) : Buffer := h.getD b ⟨[], 0⟩

def Heap.mapAt (h : Heap) (b : Nat) (f : Buffer → Buffer) : Heap :=
  h.set b (f (h.bufAt b))

/-- Reading a value's elements through its buffer pointer (`none` models a
null `buffer_`). -/
def readVal (h : Heap) (v : HVal) : Option (List F64) :=
  v.buf.map (fun b => (h.bufAt b).data)

/-- Translated from the copy constructor `MValue::MValue(const MValue &)`
(MLabValue.cpp lines 261-272): copy the header (kind, dims, buffer pointer)
and `addRef()` the shared buffer. -/
def copyValue (h : Heap) (v : HVal) : Heap × HVal :=
  match v.buf with
  | some b => (h.mapAt b (fun buf => { buf with refCount := buf.refCount + 1 }), v)
  | none => (h, v)

/-- Translated from `MValue::detach` (MLabValue.cpp lines 240-250): nothing
to do without a buffer or with `refCount() <= 1`; otherwise allocate a fresh
buffer, byte-copy the content, point the value at the copy and `release()`
the old buffer (decrement its count). -/
def detachValue (h : Heap) (v : HVal) : Heap × HVal :=
  match v.buf with
  | none => (h, v)
  | some b =>
    if (h.bufAt b).refCount ≤ 1 then (h, v)
    else
      let content := (h.bufAt b).data
      let h1 := h.mapAt b (fun buf => { buf with refCount := buf.refCount - 1 })
      (h1 ++ [⟨content, 1⟩], { v with buf := some h1.length })

/-- Element write through `MValue::elem` / `doubleDataMut`: detach first,
then store into the (now privately owned) buffer. -/
def writeElem (h : Heap) (v : HVal) (i : Nat) (x : F64) : Heap × HVal :=
  let p := detachValue h v
  match p.2.buf with
  | some b => (p.1.mapAt b (fun buf => { buf with data := buf.data.set i x }), p.2)
  | none => p

/-- Column-major resize copy as performed by `MValue::resize` on the raw
buffer content. -/
def resizeCopy (dims : Dims) (old : List F64) (newR newC : Nat) : List F64 :=
  (List.range (newR * newC)).map (fun i =>
    let r := i % newR
    let c := i / newR
    if r < dims.rows && c < dims.cols then old.getD (c * dims.rows + r) (.val 0)
    else .val 0)

/-- Translated from `MValue::resize` at the buffer level (MLabValue.cpp lines
750-787): allocate a new buffer with the copied-and-zero-filled content,
point the value at it, and `releaseBuffer()` the old one (decrement). -/
def resizeValue (h : Heap) (v : HVal) (newR newC : Nat) : Heap × HVal :=
  let old := match v.buf with | some b => (h.bufAt b).data | none => []
  let h1 := match v.buf with
    | some b => h.mapAt b (fun buf => { buf with refCount := buf.refCount - 1 })
    | none => h
  (h1 ++ [⟨resizeCopy v.dims old newR newC, 1⟩],
   { v with dims := Dims.mk2 newR newC, buf := some h1.length })

/-- Translated from `MValue::promoteToComplex` (MLabValue.cpp lines 669-694):
allocate a new interleaved `(re, im)` buffer (each double widened with a zero
imaginary part, laid out here as the flattened pair list), point the value at
it, mark it complex, and `releaseBuffer()` the old buffer. -/
def promoteValue (h : Heap) (v : HVal) : Heap × HVal :=
  let old := match v.buf with | some b => (h.bufAt b).data | none => []
  let h1 := match v.buf with
    | some b => h.mapAt b (fun buf => { buf with refCount := buf.refCount - 1 })
    | none => h
  (h1 ++ [⟨old.flatMap (fun x => [x, .val 0]), 1⟩],
   { v with ty := .COMPLEX, buf := some h1.length })

/-- Depth-counter protocol of `Engine::RecursionGuard` (MLabEngine.hpp lines
104-121) driving `Engine::callUserFunctionMulti`, specialised to a user
function whose body makes one further recursive call (`r = f(n + 1)`), the
engine test's RecursionDepthExceeded scenario.  The guard's constructor
executes `if (++depth_ > maxDepth) throw ...`: the counter is incremented
first, and when the constructor throws, C++ never runs the destructor of the
partially constructed guard, so that increment is not undone.  On every other
path out of the call (normal return, or an exception propagating out of the
body) the destructor runs and decrements.  The result pairs the call's
outcome with the value of `currentRecursionDepth_` after the call has fully
unwound. -/
def callSelfRec (maxDepth : Nat) (depth : Nat) : Except String Unit × Nat :=
  let d1 := depth + 1
  if h : d1 > maxDepth then
    (.error ("Maximum recursion depth (" ++ toString maxDepth ++ ") exceeded"), d1)
  else
    let p := callSelfRec maxDepth d1
    (p.1, p.2 - 1)
termination_by maxDepth + 1 - depth
decreasing_by simp only [d1] at h ⊢; omega

/-- Key update of `std::unordered_map` `operator[]` assignment, as an
association list (iteration order of an unordered map is unspecified; none of
the embedded code depends on it). -/
def assocSet (l : List (String × MVal)) (k : String) (v : MVal) :
    List (String × MVal) :=
  match l with
  | [] => [(k, v)]
  | (k2, v2) :: rest => if k = k2 then (k, v) :: rest else (k2, v2) :: assocSet rest k v

/-- Key lookup of `std::unordered_map::find`. -/
def assocGet (l : List (String × MVal)) (k : String) : Option MVal :=
  match l with
  | [] => none
  | (k2, v2) :: rest => if k = k2 then some v2 else assocGet rest k

/-- State of the engine's root environment: the local variable map `vars_`,
the set `globals_` of names declared global in this scope, and the
process-wide `GlobalStore`.  Translated from `class Environment` with
`parent_ == nullptr` (the engine's `globalEnv_`) and `class GlobalStore`. -/
structure EnvState where
  vars : List (String × MVal)
  globals : List String
  store : List (String × MVal)

/-- Translated from `Environment::set` for the root environment: a name
declared global in this scope writes to the global store, otherwise
`vars_[name] = val`. -/
def envSet (env : EnvState) (name : String) (v : MVal) : EnvState :=
  if env.globals.contains name then { env with store := assocSet env.store name v }
  else { env with vars := assocSet env.vars name v }

/-- Translated from `Environment::get` for the root environment (no parent):
a name declared global in this scope reads the global store; otherwise the
local map; an absent name yields `nullptr`. -/
def envGet (env : EnvState) (name : String) : Option MVal :=
  if env.globals.contains name then assocGet env.store name
  else assocGet env.vars name

/-- Translated from `MValue::fromString`: a `1 x length` char row vector;
an empty string leaves the buffer null. -/
def fromStringV (s : String) : MVal :=
  .charV (Dims.mk2 1 s.length) (if s.isEmpty then none else some s.toList)

/-- Translated from `MValue::isEmpty`: kind `EMPTY` or zero elements. -/
def MVal.isEmptyV : MVal → Bool
  | .emptyV => true
  | v => v.numel == 0

/-- Expression fragment executed by `Engine::execNode`, covering the node
kinds the control-flow claims exercise: numeric literals, string literals and
identifiers. -/
inductive Expr where
  | numLit (x : F64)
  | strLit (s : String)
  | identE (name : String)

/-- Statement fragment executed by `Engine::execNode`: blocks, assignments to
an identifier, expression statements, the three control-flow statements and
`try`/`catch` (`catchName` is the parser's `strValue`, empty when the catch
clause names no identifier; `catchBody` is present exactly when a `catch`
clause was parsed). -/
inductive Stmt where
  | block (stmts : List Stmt)
  | assignS (name : String) (e : Expr) (suppress : Bool)
  | exprS (e : Expr) (suppress : Bool)
  | breakS
  | continueS
  | returnS
  | tryS (body : Stmt) (catchName : String) (catchBody : Option Stmt)

/-- Outcome of executing a node: a normal value, or one of the four thrown
objects of the evaluator — `std::runtime_error` (ordinary errors),
`BreakSignal`, `ContinueSignal`, `ReturnSignal` (MLabEngine.hpp lines
22-27). -/
inductive Control where
  | normal (v : MVal)
  | errC (msg : String)
  | brkC
  | contC
  | retC

/-- Translated from `Engine::execIdentifier` (MLabEngine.cpp lines 380-401)
for an engine with no registered external or user functions (the core
registers none): environment lookup, then the zero-argument builtin commands
of `Engine::tryBuiltinCall`, then the final `Undefined variable or function`
throw.  `clear` erases every local name (from `vars_` and `globals_`);
`who`/`whos` only produce output; `exist`/`class` throw their
missing-argument errors. -/
def evalExpr (e : Expr) (env : EnvState) : EnvState × Except String MVal :=
  match e with
  | .numLit x => (env, .ok (.doubleV (Dims.mk2 1 1) (some [x])))
  | .strLit s => (env, .ok (fromStringV s))
  | .identE name =>
    match envGet env name with
    | some v => (env, .ok v)
    | none =>
      if name = "clear" then
        let names := env.vars.map Prod.fst
        ({ env with vars := [],
                    globals := env.globals.filter (fun g => !names.contains g) },
         .ok .emptyV)
      else if name = "who" then (env, .ok .emptyV)
      else if name = "whos" then (env, .ok .emptyV)
      else if name = "exist" then (env, .error ("exist requires a name argument"))
      else if name = "class" then (env, .error ("class requires an argument"))
      else (env, .error ("Undefined variable or function: " ++ name))

/-- The error value bound by the catch clause, translated from
`Engine::execTryCatch`: a fresh struct whose `message` field holds
`e.what()` and whose `identifier` field holds `MLAB:error` (the underlying
`std::map` keeps the two fields in key order). -/
def errStruct (msg : String) : MVal :=
  .structV (mapInsert ("identifier") (fromStringV ("MLAB:error"))
    (mapInsert ("message") (fromStringV msg) []))

mutual

/-- Statement execution, translated from the corresponding cases of
`Engine::execNode` / `execBlock` / `execAssign` (identifier target) /
`execExprStmt` / `execTryCatch` and the `BREAK_STMT` / `CONTINUE_STMT` /
`RETURN_STMT` dispatch arms.  Environment mutations performed before a throw
are retained, exactly as with the in-place `env` of the source.  `fuel`
bounds the depth of the tree walk (the host's call stack); every property
below holds for every fuel large enough to run the statement, and fuel
exhaustion is a distinguished outcome no adequately fuelled run produces. -/
def execStmt : Nat → Stmt → EnvState → EnvState × Control
  | 0, _, env => (env, .errC ("evaluator fuel exhausted"))
  | f + 1, .block stmts, env => execSeq f stmts env .emptyV
  | _ + 1, .assignS name e _, env =>
    match evalExpr e env with
    | (env2, .error m) => (env2, .errC m)
    | (env2, .ok v) => (envSet env2 name v, .normal v)
  | _ + 1, .exprS e suppress, env =>
    match evalExpr e env with
    | (env2, .error m) => (env2, .errC m)
    | (env2, .ok v) =>
      if !suppress && !v.isEmptyV then (envSet env2 ("ans") v, .normal v)
      else (env2, .normal v)
  | _ + 1, .breakS, env => (env, .brkC)
  | _ + 1, .continueS, env => (env, .contC)
  | _ + 1, .returnS, env => (env, .retC)
  | f + 1, .tryS body catchName catchBody, env =>
    match execStmt f body env with
    | (env2, .normal v) => (env2, .normal v)
    | (env2, .brkC) => (env2, .brkC)
    | (env2, .contC) => (env2, .contC)
    | (env2, .retC) => (env2, .retC)
    | (env2, .errC msg) =>
      match catchBody with
      | some cb =>
        execStmt f cb
          (if catchName ≠ "" then envSet env2 catchName (errStruct msg) else env2)
      | none => (env2, .normal .emptyV)

/-- Translated from `Engine::execBlock`: children run in order, the value of
the last one is returned, and any thrown object propagates at once (leaving
earlier mutations in place). -/
def execSeq : Nat → List Stmt → EnvState → MVal → EnvState × Control
  | 0, _, env, _ => (env, .errC ("evaluator fuel exhausted"))
  | _ + 1, [], env, last => (env, .normal last)
  | f + 1, s :: rest, env, _ =>
    match execStmt f s env with
    | (env2, .normal v) => execSeq f rest env2 v
    | r => r

end

/-- The process constants installed by the engine constructor `Engine::Engine`
(MLabEngine.cpp lines 18-34), in registration order.  The binary64 literals
are modelled as the exact decimal rationals written in the source. -/
def engineConstants : List (String × MVal) :=
  [(("pi"), .doubleV (Dims.mk2 1 1) (some [.val (3.14159265358979323846 : ℚ)])),
   (("eps"), .doubleV (Dims.mk2 1 1) (some [.val (2.2204460492503131e-16 : ℚ)])),
   (("inf"), .doubleV (Dims.mk2 1 1) (some [.inf])),
   (("Inf"), .doubleV (Dims.mk2 1 1) (some [.inf])),
   (("nan"), .doubleV (Dims.mk2 1 1) (some [.nan])),
   (("NaN"), .doubleV (Dims.mk2 1 1) (some [.nan])),
   (("true"), .logicalV (Dims.mk2 1 1) (some [1])),
   (("false"), .logicalV (Dims.mk2 1 1) (some [0])),
   (("i"), .complexV (Dims.mk2 1 1) (some [(.val 0, .val 1)])),
   (("j"), .complexV (Dims.mk2 1 1) (some [(.val 0, .val 1)]))]

/-- The engine's root environment right after construction: each constant is
installed through `globalEnv_->set(...)` in order; no name is declared
global, so every constant lands in the ordinary local variable map. -/
def initialEnv : EnvState :=
  engineConstants.foldl (fun env p => envSet env p.1 p.2) ⟨[], [], []⟩

/-- Token kinds, translated from `enum class TokenType` in MLabLexer.hpp. -/
inductive TokenTy where
  | NUMBER
  | IMAG_NUMBER
  | STRING
  | IDENTIFIER
  | PLUS
  | MINUS
  | STAR
  | SLASH
  | BACKSLASH
  | DOT_BACKSLASH
  | CARET
  | DOT_STAR
  | DOT_SLASH
  | DOT_CARET
  | DOT_APOSTROPHE
  | EQ
  | NEQ
  | LT
  | GT
  | LEQ
  | GEQ
  | AND
  | OR
  | TILDE
  | AND_SHORT
  | OR_SHORT
  | ASSIGN
  | LPAREN
  | RPAREN
  | LBRACKET
  | RBRACKET
  | LBRACE
  | RBRACE
  | COMMA
  | SEMICOLON
  | COLON
  | DOT
  | NEWLINE
  | APOSTROPHE
  | AT
  | ELLIPSIS
  | KW_IF
  | KW_ELSEIF
  | KW_ELSE
  | KW_END
  | KW_FOR
  | KW_WHILE
  | KW_BREAK
  | KW_CONTINUE
  | KW_RETURN
  | KW_FUNCTION
  | KW_TRUE
  | KW_FALSE
  | KW_SWITCH
  | KW_CASE
  | KW_OTHERWISE
  | KW_TRY
  | KW_CATCH
  | KW_GLOBAL
  | KW_PERSISTENT
  | END_OF_INPUT
deriving DecidableEq, Repr

/-- Lexical token, translated from `struct Token`. -/
structure Token where
  ty : TokenTy
  value : String
  line : Nat := 0
  col : Nat := 0
deriving DecidableEq, Repr

/-- Node kinds, translated from `enum class NodeType` in MLabAst.hpp. -/
inductive NodeTy where
  | NUMBER_LITERAL
  | IMAG_LITERAL
  | STRING_LITERAL
  | BOOL_LITERAL
  | IDENTIFIER
  | BINARY_OP
  | UNARY_OP
  | ASSIGN
  | MULTI_ASSIGN
  | INDEX
  | CELL_INDEX
  | FIELD_ACCESS
  | MATRIX_LITERAL
  | CELL_LITERAL
  | CALL
  | COLON_EXPR
  | IF_STMT
  | FOR_STMT
  | WHILE_STMT
  | BREAK_STMT
  | CONTINUE_STMT
  | RETURN_STMT
  | SWITCH_STMT
  | FUNCTION_DEF
  | BLOCK
  | EXPR_STMT
  | END_VAL
  | ANON_FUNC
  | TRY_STMT
  | GLOBAL_STMT
  | PERSISTENT_STMT
  | DELETE_ASSIGN
deriving DecidableEq, Repr

/-- Abstract syntax tree node, translated from `struct ASTNode` (the
`branches` and `elseBranch` fields belong to the control-flow statement
parsers, which this development does not embed; source line/column are
dropped as purely diagnostic). -/
inductive Ast where
  | mk (ty : NodeTy) (strValue : String) (numValue : F64) (boolValue : Bool)
       (suppressOutput : Bool) (children : List Ast)
       (paramNames : List String) (returnNames : List String)

def Ast.nodeTy : Ast → NodeTy
  | .mk ty _ _ _ _ _ _ _ => ty

def Ast.sv : Ast → String
  | .mk _ s _ _ _ _ _ _ => s

def Ast.childrenL : Ast → List Ast
  | .mk _ _ _ _ _ cs _ _ => cs

def Ast.suppressed : Ast → Bool
  | .mk _ _ _ _ sup _ _ _ => sup

def Ast.retNames : Ast → List String
  | .mk _ _ _ _ _ _ _ rs => rs

/-- Bare node of a given kind, as `makeNode` produces. -/
def mkNode (ty : NodeTy) : Ast := .mk ty "" (.val 0) false false [] [] []

/-- Binary-operator node as built by the precedence loops: operator symbol in
`strValue`, left child pushed before right. -/
def binN (op : String) (l r : Ast) : Ast :=
  .mk .BINARY_OP op (.val 0) false false [l, r] [] []

/-- Unary-operator node. -/
def unN (op : String) (c : Ast) : Ast :=
  .mk .UNARY_OP op (.val 0) false false [c] [] []

/-- Identifier node. -/
def identN (name : String) : Ast :=
  .mk .IDENTIFIER name (.val 0) false false [] [] []

def eofToken : Token := ⟨.END_OF_INPUT, "", 0, 0⟩

/-- Parser::current() — past the end the parser keeps returning the final
END_OF_INPUT token. -/
def curTok (ts : List Token) : Token := ts.headD eofToken

/-- Parser::peekToken(1). -/
def peekTok (ts : List Token) : Token := (ts.drop 1).headD eofToken

def atEnd (ts : List Token) : Bool := (curTok ts).ty == .END_OF_INPUT

/-- Parser::skipNewlines: drop NEWLINE and SEMICOLON tokens. -/
def skipNewlinesT (ts : List Token) : List Token :=
  ts.dropWhile (fun t => t.ty == .NEWLINE || t.ty == .SEMICOLON)

/-- Modelled from the spec: `std::stod` (host standard library, not part of
this repository) as used by `Parser::parseDouble`; the embedded claims only
feed it unsigned decimal integer token spellings, and any other spelling is
treated as unparseable. -/
def stodQ (s : String) : Option ℚ :=
  match s.data with
  | [] => none
  | ds =>
    if ds.all (fun c => 48 ≤ c.toNat && c.toNat ≤ 57) then
      some ((ds.foldl (fun acc c => acc * 10 + (c.toNat - 48)) 0 : Nat) : ℚ)
    else none

/-- Translated from `Parser::parseDouble`. -/
def parseDoubleT (s : String) (line col : Nat) : Except String F64 :=
  match stodQ s with
  | some q => .ok (.val q)
  | none =>
    .error ("Invalid number literal '" ++ s ++ "' at line " ++ toString line
      ++ " col " ++ toString col)

/-- Result of a parsing step: the produced node and the remaining tokens. -/
abbrev PRes := Except String (Ast × List Token)

/-- Parser::consume error path. -/
def consumeErr (expected : String) (ts : List Token) : String :=
  "Parse error at line " ++ toString (curTok ts).line ++ " col "
    ++ toString (curTok ts).col ++ ": expected " ++ expected ++ ", got '"
    ++ (curTok ts).value ++ "'"

/-- Parser::match(SEMICOLON) setting the suppress-output flag. -/
def matchSemicolonT (ts : List Token) : Bool × List Token :=
  if (curTok ts).ty == .SEMICOLON then (true, ts.drop 1) else (false, ts)

/-- Name-list phase of Parser::tryMultiAssign after the first entry:
`, ident-or-tilde` repeated, then the closing `]` and the `=`; `none` tells
the caller to rewind. -/
def collectMaTail : List Token → Option (List String × List Token)
  | t :: rest =>
    if t.ty == .COMMA then
      match rest with
      | t2 :: rest2 =>
        if t2.ty == .IDENTIFIER then
          (collectMaTail rest2).map (fun p => (t2.value :: p.1, p.2))
        else if t2.ty == .TILDE then
          (collectMaTail rest2).map (fun p => ("~" :: p.1, p.2))
        else none
      | [] => none
    else if t.ty == .RBRACKET then some ([], rest)
    else none
  | [] => none

/-- First entry of the tryMultiAssign name list. -/
def collectMaNames (ts : List Token) : Option (List String × List Token) :=
  match ts with
  | t :: rest =>
    if t.ty == .IDENTIFIER then (collectMaTail rest).map (fun p => (t.value :: p.1, p.2))
    else if t.ty == .TILDE then (collectMaTail rest).map (fun p => ("~" :: p.1, p.2))
    else none
  | [] => none

/-- Comma-separated identifier tail, then the closing `)`. -/
def parseParamTailP : List Token → Except String (List String × List Token)
  | t :: t2 :: rest =>
    if t.ty == .COMMA && t2.ty == .IDENTIFIER then
      match parseParamTailP rest with
      | .ok (names, ts2) => .ok (t2.value :: names, ts2)
      | .error e => .error e
    else if t.ty == .RPAREN then .ok ([], t2 :: rest)
    else .error (consumeErr (")") (t :: t2 :: rest))
  | [t] =>
    if t.ty == .RPAREN then .ok ([], [])
    else .error (consumeErr (")") [t])
  | [] => .error (consumeErr (")") [])

/-- Parameter-name list `ident, ident, ...` up to the closing `)`, used by
parseAnonFunc (empty when `)` follows at once). -/
def parseParamNamesP (emptyList : Bool) (ts : List Token) :
    Except String (List String × List Token) :=
  if emptyList then .ok ([], ts.drop 1)
  else
    match ts with
    | [] => .error (consumeErr ("param") ts)
    | t :: rest =>
      if t.ty == .IDENTIFIER then
        match parseParamTailP rest with
        | .ok (names, ts2) => .ok (t.value :: names, ts2)
        | .error e => .error e
      else .error (consumeErr ("param") ts)


mutual

/-- Parser::parseExpression — the precedence chain entry point. -/
def parseExpressionP (fuel : Nat) (ts : List Token) : PRes :=
  match fuel with
  | 0 => .error ("parser fuel exhausted")
  | f + 1 => parseOrP f ts

/-- Parser::parseOr (MLabParser.cpp lines 517-531): one precedence level
serving BOTH the element-wise `|` (OR) and the short-circuit `||` (OR_SHORT)
tokens, left-associative, with `parseAnd` as the operand parser. -/
def parseOrP (fuel : Nat) (ts : List Token) : PRes :=
  match fuel with
  | 0 => .error ("parser fuel exhausted")
  | f + 1 => do
    let (left, ts1) ← parseAndP f ts
    parseOrLoopP f left ts1

def parseOrLoopP (fuel : Nat) (left : Ast) (ts : List Token) : PRes :=
  match fuel with
  | 0 => .error ("parser fuel exhausted")
  | f + 1 =>
    if (curTok ts).ty == .OR || (curTok ts).ty == .OR_SHORT then do
      let op := (curTok ts).value
      let (right, ts1) ← parseAndP f (ts.drop 1)
      parseOrLoopP f (binN op left right) ts1
    else .ok (left, ts)

/-- Parser::parseAnd (MLabParser.cpp lines 533-547): one level serving both
the element-wise `&` (AND) and the short-circuit `&&` (AND_SHORT) tokens. -/
def parseAndP (fuel : Nat) (ts : List Token) : PRes :=
  match fuel with
  | 0 => .error ("parser fuel exhausted")
  | f + 1 => do
    let (left, ts1) ← parseComparisonP f ts
    parseAndLoopP f left ts1

def parseAndLoopP (fuel : Nat) (left : Ast) (ts : List Token) : PRes :=
  match fuel with
  | 0 => .error ("parser fuel exhausted")
  | f + 1 =>
    if (curTok ts).ty == .AND || (curTok ts).ty == .AND_SHORT then do
      let op := (curTok ts).value
      let (right, ts1) ← parseComparisonP f (ts.drop 1)
      parseAndLoopP f (binN op left right) ts1
    else .ok (left, ts)

/-- Parser::parseComparison. -/
def parseComparisonP (fuel : Nat) (ts : List Token) : PRes :=
  match fuel with
  | 0 => .error ("parser fuel exhausted")
  | f + 1 => do
    let (left, ts1) ← parseColonP f ts
    parseComparisonLoopP f left ts1

def parseComparisonLoopP (fuel : Nat) (left : Ast) (ts : List Token) : PRes :=
  match fuel with
  | 0 => .error ("parser fuel exhausted")
  | f + 1 =>
    let t := (curTok ts).ty
    if t == .EQ || t == .NEQ || t == .LT || t == .GT || t == .LEQ || t == .GEQ then do
      let op := (curTok ts).value
      let (right, ts1) ← parseColonP f (ts.drop 1)
      parseComparisonLoopP f (binN op left right) ts1
    else .ok (left, ts)

/-- Parser::parseColon: `a:b` and `a:b:c` forms. -/
def parseColonP (fuel : Nat) (ts : List Token) : PRes :=
  match fuel with
  | 0 => .error ("parser fuel exhausted")
  | f + 1 => do
    let (start, ts1) ← parseAddSubP f ts
    if (curTok ts1).ty == .COLON then do
      let (second, ts2) ← parseAddSubP f (ts1.drop 1)
      if (curTok ts2).ty == .COLON then do
        let (third, ts3) ← parseAddSubP f (ts2.drop 1)
        .ok (.mk .COLON_EXPR "" (.val 0) false false [start, second, third] [] [], ts3)
      else
        .ok (.mk .COLON_EXPR "" (.val 0) false false [start, second] [] [], ts2)
    else .ok (start, ts1)

/-- Parser::parseAddSub. -/
def parseAddSubP (fuel : Nat) (ts : List Token) : PRes :=
  match fuel with
  | 0 => .error ("parser fuel exhausted")
  | f + 1 => do
    let (left, ts1) ← parseMulDivP f ts
    parseAddSubLoopP f left ts1

def parseAddSubLoopP (fuel : Nat) (left : Ast) (ts : List Token) : PRes :=
  match fuel with
  | 0 => .error ("parser fuel exhausted")
  | f + 1 =>
    if (curTok ts).ty == .PLUS || (curTok ts).ty == .MINUS then do
      let op := (curTok ts).value
      let (right, ts1) ← parseMulDivP f (ts.drop 1)
      parseAddSubLoopP f (binN op left right) ts1
    else .ok (left, ts)

/-- Parser::parseMulDiv. -/
def parseMulDivP (fuel : Nat) (ts : List Token) : PRes :=
  match fuel with
  | 0 => .error ("parser fuel exhausted")
  | f + 1 => do
    let (left, ts1) ← parseUnaryP f ts
    parseMulDivLoopP f left ts1

def parseMulDivLoopP (fuel : Nat) (left : Ast) (ts : List Token) : PRes :=
  match fuel with
  | 0 => .error ("parser fuel exhausted")
  | f + 1 =>
    let t := (curTok ts).ty
    if t == .STAR || t == .SLASH || t == .BACKSLASH || t == .DOT_BACKSLASH
        || t == .DOT_STAR || t == .DOT_SLASH then do
      let op := (curTok ts).value
      let (right, ts1) ← parseUnaryP f (ts.drop 1)
      parseMulDivLoopP f (binN op left right) ts1
    else .ok (left, ts)

/-- Parser::parseUnary: prefix `-` and `~` bind a parsePower operand; a
prefix `+` is dropped. -/
def parseUnaryP (fuel : Nat) (ts : List Token) : PRes :=
  match fuel with
  | 0 => .error ("parser fuel exhausted")
  | f + 1 =>
    if (curTok ts).ty == .MINUS then do
      let (c, ts1) ← parsePowerP f (ts.drop 1)
      .ok (unN ("-") c, ts1)
    else if (curTok ts).ty == .TILDE then do
      let (c, ts1) ← parsePowerP f (ts.drop 1)
      .ok (unN ("~") c, ts1)
    else if (curTok ts).ty == .PLUS then
      parsePowerP f (ts.drop 1)
    else
      parsePowerP f ts

/-- Parser::parsePower: right-associative through the parseUnary operand. -/
def parsePowerP (fuel : Nat) (ts : List Token) : PRes :=
  match fuel with
  | 0 => .error ("parser fuel exhausted")
  | f + 1 => do
    let (left, ts1) ← parsePostfixOpsP f ts
    if (curTok ts1).ty == .CARET || (curTok ts1).ty == .DOT_CARET then do
      let op := (curTok ts1).value
      let (right, ts2) ← parseUnaryP f (ts1.drop 1)
      .ok (binN op left right, ts2)
    else .ok (left, ts1)

/-- Parser::parsePostfix: the `() {} . ' .'` postfix loop.  `f(args)` always
builds a CALL node (call vs. index is resolved by the evaluator). -/
def parsePostfixOpsP (fuel : Nat) (ts : List Token) : PRes :=
  match fuel with
  | 0 => .error ("parser fuel exhausted")
  | f + 1 => do
    let (node, ts1) ← parsePrimaryP f ts
    parsePostfixLoopP f node ts1

def parsePostfixLoopP (fuel : Nat) (node : Ast) (ts : List Token) : PRes :=
  match fuel with
  | 0 => .error ("parser fuel exhausted")
  | f + 1 =>
    if (curTok ts).ty == .LPAREN then do
      let (args, ts1) ← parseCallArgsP f (ts.drop 1)
      parsePostfixLoopP f (.mk .CALL "" (.val 0) false false (node :: args) [] []) ts1
    else if (curTok ts).ty == .LBRACE then do
      let ts0 := ts.drop 1
      let (first, ts1) ← parseExpressionP f ts0
      let (more, ts2) ← parseCommaArgsP f ts1
      if (curTok ts2).ty == .RBRACE then
        parsePostfixLoopP f
          (.mk .CELL_INDEX "" (.val 0) false false (node :: first :: more) [] []) (ts2.drop 1)
      else .error (consumeErr ("\x7d") ts2)
    else if (curTok ts).ty == .DOT && (peekTok ts).ty == .IDENTIFIER then
      parsePostfixLoopP f
        (.mk .FIELD_ACCESS (peekTok ts).value (.val 0) false false [node] [] []) (ts.drop 2)
    else if (curTok ts).ty == .APOSTROPHE then
      parsePostfixLoopP f (unN ("'") node) (ts.drop 1)
    else if (curTok ts).ty == .DOT_APOSTROPHE then
      parsePostfixLoopP f (unN (".'") node) (ts.drop 1)
    else .ok (node, ts)

/-- Argument list of a CALL: empty when `)` follows at once, else
comma-separated expressions, then the closing `)`. -/
def parseCallArgsP (fuel : Nat) (ts : List Token) : Except String (List Ast × List Token) :=
  match fuel with
  | 0 => .error ("parser fuel exhausted")
  | f + 1 =>
    if (curTok ts).ty == .RPAREN then .ok ([], ts.drop 1)
    else do
      let (first, ts1) ← parseExpressionP f ts
      let (more, ts2) ← parseCommaArgsP f ts1
      if (curTok ts2).ty == .RPAREN then .ok (first :: more, ts2.drop 1)
      else .error (consumeErr (")") ts2)

/-- The `while (match(COMMA)) push(parseExpression())` loops. -/
def parseCommaArgsP (fuel : Nat) (ts : List Token) : Except String (List Ast × List Token) :=
  match fuel with
  | 0 => .error ("parser fuel exhausted")
  | f + 1 =>
    if (curTok ts).ty == .COMMA then do
      let (e, ts1) ← parseExpressionP f (ts.drop 1)
      let (more, ts2) ← parseCommaArgsP f ts1
      .ok (e :: more, ts2)
    else .ok ([], ts)

/-- Parser::parsePrimary (MLabParser.cpp lines 725-792). -/
def parsePrimaryP (fuel : Nat) (ts : List Token) : PRes :=
  match fuel with
  | 0 => .error ("parser fuel exhausted")
  | f + 1 =>
    let t := curTok ts
    match t.ty with
    | .NUMBER => do
      let q ← parseDoubleT t.value t.line t.col
      .ok (.mk .NUMBER_LITERAL t.value q false false [] [] [], ts.drop 1)
    | .IMAG_NUMBER => do
      let q ← parseDoubleT t.value t.line t.col
      .ok (.mk .IMAG_LITERAL t.value q false false [] [] [], ts.drop 1)
    | .STRING => .ok (.mk .STRING_LITERAL t.value (.val 0) false false [] [] [], ts.drop 1)
    | .KW_TRUE => .ok (.mk .BOOL_LITERAL "" (.val 0) true false [] [] [], ts.drop 1)
    | .KW_FALSE => .ok (.mk .BOOL_LITERAL "" (.val 0) false false [] [] [], ts.drop 1)
    | .KW_END => .ok (mkNode .END_VAL, ts.drop 1)
    | .IDENTIFIER => .ok (identN t.value, ts.drop 1)
    | .AT => parseAnonFuncP f ts
    | .LPAREN => do
      let (e, ts1) ← parseExpressionP f (ts.drop 1)
      if (curTok ts1).ty == .RPAREN then .ok (e, ts1.drop 1)
      else .error (consumeErr (")") ts1)
    | .LBRACKET => parseArrayLiteralP f .LBRACKET .RBRACKET .MATRIX_LITERAL ts
    | .LBRACE => parseArrayLiteralP f .LBRACE .RBRACE .CELL_LITERAL ts
    | .COLON => .ok (mkNode .COLON_EXPR, ts.drop 1)
    | _ =>
      .error ("Unexpected token '" ++ t.value ++ "' at line " ++ toString t.line
        ++ " col " ++ toString t.col)

/-- Parser::parseAnonFunc: `@name` handle or `@(params) expr` lambda. -/
def parseAnonFuncP (fuel : Nat) (ts : List Token) : PRes :=
  match fuel with
  | 0 => .error ("parser fuel exhausted")
  | f + 1 =>
    let ts0 := ts.drop 1
    if (curTok ts0).ty == .IDENTIFIER && (peekTok ts0).ty != .LPAREN then
      .ok (.mk .ANON_FUNC (curTok ts0).value (.val 0) false false [] [] [], ts0.drop 1)
    else if (curTok ts0).ty == .LPAREN then do
      let (ps, ts1) ← parseParamNamesP ((curTok (ts0.drop 1)).ty == .RPAREN) (ts0.drop 1)
      let (body, ts2) ← parseExpressionP f ts1
      .ok (.mk .ANON_FUNC "" (.val 0) false false [body] ps [], ts2)
    else .error (consumeErr ("(") ts0)

/-- Array and cell literals, Parser::parseArrayLiteral (lines 828-875):
rows separated by `;` or context newlines, elements separated by commas,
empty rows dropped. -/
def parseArrayLiteralP (fuel : Nat) (openT closeT : TokenTy) (nodeType : NodeTy)
    (ts : List Token) : PRes :=
  match fuel with
  | 0 => .error ("parser fuel exhausted")
  | f + 1 =>
    if (curTok ts).ty != openT then
      .error (consumeErr (if openT == .LBRACKET then ("[") else ("\x7b")) ts)
    else
      let ts1 := ts.drop 1
      if (curTok ts1).ty == closeT then .ok (mkNode nodeType, ts1.drop 1)
      else do
        let (first, ts2) ← parseExpressionP f ts1
        parseArrayRowsP f closeT nodeType [] [first] ts2

/-- The row-accumulation loop of parseArrayLiteral: `rows` holds the
completed row nodes, `row` the current row's elements (both in order). -/
def parseArrayRowsP (fuel : Nat) (closeT : TokenTy) (nodeType : NodeTy)
    (rows : List Ast) (row : List Ast) (ts : List Token) : PRes :=
  match fuel with
  | 0 => .error ("parser fuel exhausted")
  | f + 1 =>
    if (curTok ts).ty == closeT || atEnd ts then
      let rows2 := if row.isEmpty then rows else
        rows ++ [.mk .BLOCK "" (.val 0) false false row [] []]
      if (curTok ts).ty == closeT then
        .ok (.mk nodeType "" (.val 0) false false rows2 [] [], ts.drop 1)
      else .error (consumeErr (if closeT == .RBRACKET then ("]") else ("\x7d")) ts)
    else if (curTok ts).ty == .SEMICOLON || (curTok ts).ty == .NEWLINE then
      let rows2 := rows ++ [.mk .BLOCK "" (.val 0) false false row [] []]
      let ts1 := skipNewlinesT ts
      if (curTok ts1).ty == closeT then
        .ok (.mk nodeType "" (.val 0) false false rows2 [] [], ts1.drop 1)
      else do
        let (e, ts2) ← parseExpressionP f ts1
        parseArrayRowsP f closeT nodeType rows2 [e] ts2
    else if (curTok ts).ty == .COMMA then do
      let ts1 := ts.drop 1
      if (curTok ts1).ty == closeT || (curTok ts1).ty == .SEMICOLON
          || (curTok ts1).ty == .NEWLINE then
        parseArrayRowsP f closeT nodeType rows row ts1
      else do
        let (e, ts2) ← parseExpressionP f ts1
        parseArrayRowsP f closeT nodeType rows (row ++ [e]) ts2
    else do
      let (e, ts2) ← parseExpressionP f ts
      parseArrayRowsP f closeT nodeType rows (row ++ [e]) ts2

end

/-- Soft multi-assign probe, Parser::tryMultiAssign (MLabParser.cpp lines
222-277): returns `none` (the caller rewinds) until the `=` after the
bracketed name list has been seen; past that commit point a right-hand-side
failure is a real parse error. -/
def tryMultiAssignP (fuel : Nat) (ts : List Token) :
    Except String (Option (Ast × List Token)) :=
  if (curTok ts).ty != .LBRACKET then .ok none
  else
    match collectMaNames (ts.drop 1) with
    | none => .ok none
    | some (names, ts1) =>
      if (curTok ts1).ty != .ASSIGN then .ok none
      else
        match parseExpressionP fuel (ts1.drop 1) with
        | .error e => .error e
        | .ok (rhs, ts2) =>
          let p := matchSemicolonT ts2
          .ok (some (.mk .MULTI_ASSIGN "" (.val 0) false p.1 [rhs] [] names,
            skipNewlinesT p.2))

/-- Translated from Parser::parseExpressionStatement (MLabParser.cpp lines
181-220): after a successful multi-assign probe the probe's node is the
statement; otherwise parse an expression, and on a following `=` check for
the literal token pair `[` `]` — if present the statement becomes a
DELETE_ASSIGN over the already-parsed left-hand side, whatever node kind that
is; otherwise an ordinary ASSIGN; with no `=` an EXPR_STMT. -/
def parseExpressionStatementP (fuel : Nat) (ts : List Token) : PRes := do
  let probe ← if (curTok ts).ty == .LBRACKET then tryMultiAssignP fuel ts else pure none
  match probe with
  | some r => .ok r
  | none =>
    match parseExpressionP fuel ts with
    | .error e => .error e
    | .ok (expr, ts1) =>
      if (curTok ts1).ty == .ASSIGN then
        let ts2 := ts1.drop 1
        if (curTok ts2).ty == .LBRACKET && (peekTok ts2).ty == .RBRACKET then
          let p := matchSemicolonT (ts2.drop 2)
          .ok (.mk .DELETE_ASSIGN "" (.val 0) false p.1 [expr] [] [], skipNewlinesT p.2)
        else
          match parseExpressionP fuel ts2 with
          | .error e => .error e
          | .ok (rhs, ts3) =>
            let p := matchSemicolonT ts3
            .ok (.mk .ASSIGN "" (.val 0) false p.1 [expr, rhs] [] [], skipNewlinesT p.2)
      else
        let p := matchSemicolonT ts1
        .ok (.mk .EXPR_STMT "" (.val 0) false p.1 [expr] [] [], skipNewlinesT p.2)

/-- Translated from the dispatch head of `Engine::execDeleteAssign`
(MLabEngine.cpp lines 601-616): before any deletion happens the statement's
left-hand side must be a CALL node with children (an index expression), and
the call target must be an identifier; the identifier's name is then looked
up and the deletion proper (`deleteLinear`) runs on the bound variable. -/
def deleteAssignTargetName (node : Ast) : Except String String :=
  let lhs := node.childrenL.headD (mkNode .BLOCK)
  if lhs.nodeTy != .CALL || lhs.childrenL.isEmpty then
    .error ("Invalid delete assignment syntax")
  else
    let target := lhs.childrenL.headD (mkNode .BLOCK)
    if target.nodeTy != .IDENTIFIER then .error ("Invalid delete target")
    else .ok target.sv

theorem all_not_isZero_eq_not_any (xs : List F64) :
    xs.all (fun x => !x.isZero) = !xs.any F64.isZero := by
  induction xs with
  | nil => rfl
  | cons x rest ih => simp [List.all_cons, List.any_cons, ih]

theorem mapInsert_keys_mem (k : String) (v : MVal) (l : List (String × MVal))
    (q : String) (hq : q ∈ (mapInsert k v l).map Prod.fst) :
    q = k ∨ q ∈ l.map Prod.fst := by
  induction l with
  | nil => simpa [mapInsert] using hq
  | cons p rest ih =>
    by_cases h1 : k.data < p.1.data
    · simp only [mapInsert, if_pos h1, List.map_cons, List.mem_cons] at hq
      rcases hq with h | h | h
      · exact Or.inl h
      · exact Or.inr (by simp [h])
      · exact Or.inr (by simp [h])
    · by_cases h2 : k = p.1
      · simp only [mapInsert, if_neg h1, if_pos h2, List.map_cons, List.mem_cons] at hq
        rcases hq with h | h
        · exact Or.inl h
        · exact Or.inr (by simp [h])
      · simp only [mapInsert, if_neg h1, if_neg h2, List.map_cons, List.mem_cons] at hq
        rcases hq with h | h
        · exact Or.inr (by simp [h])
        · rcases ih h with h3 | h3
          · exact Or.inl h3
          · exact Or.inr (by simp [h3])

theorem mapInsert_keys_pairwise (k : String) (v : MVal) (l : List (String × MVal))
    (h : List.Pairwise (fun a b : String => a.data < b.data) (l.map Prod.fst)) :
    List.Pairwise (fun a b : String => a.data < b.data)
      ((mapInsert k v l).map Prod.fst) := by
  induction l with
  | nil => simp [mapInsert]
  | cons p rest ih =>
    simp only [List.map_cons, List.pairwise_cons] at h
    by_cases h1 : k.data < p.1.data
    · simp only [mapInsert, if_pos h1, List.map_cons, List.pairwise_cons]
      refine ⟨?_, h.1, h.2⟩
      intro q hq
      rcases List.mem_cons.mp hq with h3 | h3
      · exact h3 ▸ h1
      · exact lt_trans h1 (h.1 q h3)
    · by_cases h2 : k = p.1
      · simp only [mapInsert, if_neg h1, if_pos h2, List.map_cons, List.pairwise_cons]
        exact ⟨fun q hq => h2 ▸ h.1 q hq, h.2⟩
      · simp only [mapInsert, if_neg h1, if_neg h2, List.map_cons, List.pairwise_cons]
        refine ⟨?_, ih h.2⟩
        intro q hq
        rcases mapInsert_keys_mem k v rest q hq with h3 | h3
        · subst h3
          rcases lt_trichotomy q.data p.1.data with h4 | h4 | h4
          · exact absurd h4 h1
          · exact absurd (String.ext h4) h2
          · exact h4
        · exact h.1 q h3

theorem fieldAssign_keys_pairwise (s : MVal)
    (h : List.Pairwise (fun a b : String => a.data < b.data) s.fieldNames)
    (name : String) (v : MVal) :
    List.Pairwise (fun a b : String => a.data < b.data)
      (s.fieldAssign name v).fieldNames := by
  cases s <;>
    simp only [MVal.fieldAssign, MVal.fieldNames] at h ⊢ <;>
    exact mapInsert_keys_pairwise _ _ _ h

theorem foldl_fieldAssign_pairwise (ops : List (String × MVal)) (s : MVal)
    (h : List.Pairwise (fun a b : String => a.data < b.data) s.fieldNames) :
    List.Pairwise (fun a b : String => a.data < b.data)
      ((ops.foldl (fun (acc : MVal) p => acc.fieldAssign p.1 p.2) s).fieldNames) := by
  induction ops generalizing s with
  | nil => exact h
  | cons p rest ih =>
    exact ih _ (fieldAssign_keys_pairwise s h p.1 p.2)

theorem filterMap_if_sublist (P : Nat → Bool) (l : List (Nat × F64)) :
    (l.filterMap (fun p => if P p.1 then none else some p.2)).Sublist
      (l.map Prod.snd) := by
  induction l with
  | nil => simp
  | cons p rest ih =>
    by_cases h : P p.1
    · simp only [List.filterMap_cons, h, if_pos, List.map_cons]
      exact ih.cons _
    · simp only [List.filterMap_cons, h, if_neg, Bool.false_eq_true,
        not_false_eq_true, List.map_cons]
      exact ih.cons₂ _

theorem map_snd_zip_sublist (l1 : List Nat) (l2 : List F64) :
    ((l1.zip l2).map Prod.snd).Sublist l2 := by
  induction l1 generalizing l2 with
  | nil => simp
  | cons a rest ih =>
    cases l2 with
    | nil => simp
    | cons b rest2 => simpa using (ih rest2).cons₂ b

theorem setFold_length (pairs : List (Nat × F64)) (dat : List F64) :
    (pairs.foldl (fun d p => d.set p.1 p.2) dat).length = dat.length := by
  induction pairs generalizing dat with
  | nil => rfl
  | cons p rest ih => simp only [List.foldl_cons, ih, List.length_set]

theorem setFold_getElem_notMem (pairs : List (Nat × F64)) (dat : List F64) (i : Nat)
    (h : i ∉ pairs.map Prod.fst) :
    (pairs.foldl (fun d p => d.set p.1 p.2) dat)[i]? = dat[i]? := by
  induction pairs generalizing dat with
  | nil => rfl
  | cons p rest ih =>
    simp only [List.map_cons, List.mem_cons, not_or] at h
    simp only [List.foldl_cons]
    rw [ih _ h.2, List.getElem?_set_ne (fun hh => h.1 hh.symm)]

theorem setFold_getElem_nodup (pairs : List (Nat × F64)) (dat : List F64)
    (hnd : (pairs.map Prod.fst).Nodup) (k : Nat) (hk : k < pairs.length)
    (hlt : (pairs.get ⟨k, hk⟩).1 < dat.length) :
    (pairs.foldl (fun d p => d.set p.1 p.2) dat)[(pairs.get ⟨k, hk⟩).1]? =
      some (pairs.get ⟨k, hk⟩).2 := by
  induction pairs generalizing dat k with
  | nil => exact absurd hk (by simp)
  | cons p rest ih =>
    simp only [List.map_cons, List.nodup_cons] at hnd
    cases k with
    | zero =>
      simp only [List.get] at hlt ⊢
      simp only [List.foldl_cons]
      rw [setFold_getElem_notMem rest (dat.set p.1 p.2) p.1 hnd.1,
        List.getElem?_set_eq_of_lt _ hlt]
    | succ k2 =>
      simp only [List.get] at hlt ⊢
      simp only [List.foldl_cons]
      exact ih _ hnd.2 k2 (Nat.lt_of_succ_lt_succ hk)
        (by simpa [List.length_set] using hlt)

theorem bufAt_set_ne (h : Heap) (i j : Nat) (buf : Buffer) (hij : i ≠ j) :
    Heap.bufAt (h.set i buf) j = Heap.bufAt h j := by
  simp only [Heap.bufAt, List.getD_eq_getElem?_getD, List.getElem?_set_ne hij]

theorem bufAt_set_self (h : Heap) (b : Nat) (buf : Buffer) (hb : b < h.length) :
    Heap.bufAt (h.set b buf) b = buf := by
  simp only [Heap.bufAt, List.getD_eq_getElem?_getD,
    List.getElem?_set_eq_of_lt _ hb, Option.getD_some]

theorem bufAt_append_lt (h : Heap) (l : List Buffer) (j : Nat) (hj : j < h.length) :
    Heap.bufAt (h ++ l) j = Heap.bufAt h j := by
  simp only [Heap.bufAt, List.getD_append _ _ _ _ hj]

theorem assocGet_assocSet_self (l : List (String × MVal)) (k : String) (v : MVal) :
    assocGet (assocSet l k v) k = some v := by
  induction l with
  | nil => simp [assocSet, assocGet]
  | cons p rest ih =>
    cases p with
    | mk k2 v2 =>
      by_cases h : k = k2
      · simp [assocSet, assocGet, h]
      · simp [assocSet, assocGet, h, ih]

theorem callSelfRec_residue (maxDepth d : Nat) :
    callSelfRec maxDepth d =
      (.error ("Maximum recursion depth (" ++ toString maxDepth ++ ") exceeded"),
       d + 1) := by
  unfold callSelfRec
  by_cases hgt : d + 1 > maxDepth
  · simp only [dif_pos hgt]
  · have ih := callSelfRec_residue maxDepth (d + 1)
    simp only [dif_neg hgt, ih, Nat.add_sub_cancel]
termination_by maxDepth - d
decreasing_by omega

theorem map_fst_zip_take (l1 : List Nat) (l2 : List F64) :
    (l1.zip l2).map Prod.fst = l1.take l2.length := by
  induction l1 generalizing l2 with
  | nil => simp
  | cons a rest ih =>
    cases l2 with
    | nil => simp
    | cons b rest2 => simp [ih]

theorem bufAt_mapAt_data (h : Heap) (b j : Nat) (hbl : b < h.length)
    (f : Buffer → Buffer) (hf : ∀ buf, (f buf).data = buf.data) :
    (Heap.bufAt (Heap.mapAt h b f) j).data = (Heap.bufAt h j).data := by
  by_cases hj : b = j
  · subst hj
    rw [Heap.mapAt, bufAt_set_self _ _ _ hbl, hf]
  · rw [Heap.mapAt, bufAt_set_ne _ _ _ _ hj]

theorem readVal_mapAt_data (H : Heap) (v : HVal) (b j : Nat) (hb : v.buf = some b)
    (hjl : j < H.length) (f : Buffer → Buffer)
    (hf : ∀ buf, (f buf).data = buf.data) :
    readVal (Heap.mapAt H j f) v = readVal H v := by
  simp only [readVal, hb, Option.map_some']
  exact congrArg some (bufAt_mapAt_data H j b hjl f hf)

theorem readVal_append (H : Heap) (v : HVal) (b : Nat) (hb : v.buf = some b)
    (hlt : b < H.length) (l : List Buffer) :
    readVal (H ++ l) v = readVal H v := by
  simp only [readVal, hb, Option.map_some']
  exact congrArg some (congrArg Buffer.data (bufAt_append_lt H l b hlt))

theorem readVal_set_outside (H : Heap) (v : HVal) (b j : Nat) (hb : v.buf = some b)
    (hne : j ≠ b) (f : Buffer → Buffer) :
    readVal (Heap.mapAt H j f) v = readVal H v := by
  simp only [readVal, hb, Option.map_some']
  rw [Heap.mapAt, bufAt_set_ne _ _ _ _ hne]

theorem envGet_envSet_initial (name : String) (v : MVal) :
    envGet (envSet initialEnv name v) name = some v := by
  have hg : initialEnv.globals = [] := rfl
  have h1 : envSet initialEnv name v =
      { initialEnv with vars := assocSet initialEnv.vars name v } := by
    simp [envSet, hg]
  rw [h1]
  simp only [envGet, hg, List.contains_nil, Bool.false_eq_true, if_false]
  exact assocGet_assocSet_self _ _ _

/-- C3 counterexample: the claim asserts that an empty array used as a
condition is false (not an error) and that a non-scalar logical array has a
defined truth value.  On the code, `MValue::toBool` — the conversion used by
`execIf` and `execWhile` — throws a conversion error for an `EMPTY` value
(the result of `[]`) and for every non-scalar logical array. -/
theorem c3_counterexample :
    MVal.toBool .emptyV = .error ("Cannot convert empty to bool") ∧
    MVal.toBool .emptyV ≠ .ok false ∧
    MVal.toBool (.logicalV (Dims.mk2 1 2) (some [1, 1])) =
      .error ("Cannot convert logical to bool") :=
  ⟨rfl, fun hcontra => Except.noConfusion hcontra, rfl⟩

/-- C3 (amended): truthiness of a non-scalar DOUBLE array with an allocated
buffer is all-elements-nonzero (and false when it has no elements); but an
`EMPTY` value and a non-scalar logical array raise a conversion error rather
than having a defined truth value. -/
theorem c3_amended_truthiness (d : Dims) (xs : List F64) (hns : d.isScalar = false)
    (d2 : Dims) (ys : List Nat) (hns2 : d2.isScalar = false) :
    MVal.toBool (.doubleV d (some xs)) =
      .ok (xs.all (fun x => !x.isZero) && decide (0 < d.numel)) ∧
    MVal.toBool .emptyV = .error ("Cannot convert empty to bool") ∧
    MVal.toBool (.logicalV d2 (some ys)) =
      .error ("Cannot convert logical to bool") := by
  refine ⟨?_, rfl, ?_⟩
  · simp only [MVal.toBool, hns, Bool.false_eq_true, if_false]
    rw [all_not_isZero_eq_not_any]
    cases hz : xs.any F64.isZero <;> simp [hz]
  · simp [MVal.toBool, hns2]

/-- Witness for c3_amended_truthiness at a concrete non-scalar double array,
the empty value and a concrete 1 x 2 logical array. -/
theorem c3_amended_truthiness_witness :
    (Dims.mk2 1 2).isScalar = false ∧
    (MVal.toBool (.doubleV (Dims.mk2 1 2) (some [.val 1, .val 0])) =
      .ok (([F64.val 1, F64.val 0].all (fun x => !x.isZero)) &&
        decide (0 < (Dims.mk2 1 2).numel)) ∧
     MVal.toBool .emptyV = .error ("Cannot convert empty to bool") ∧
     MVal.toBool (.logicalV (Dims.mk2 1 2) (some [1, 1])) =
       .error ("Cannot convert logical to bool")) :=
  ⟨by decide, c3_amended_truthiness (Dims.mk2 1 2) [.val 1, .val 0] (by decide)
    (Dims.mk2 1 2) [1, 1] (by decide)⟩

/-- C4 counterexample: after assigning field `z` first and field `a` second,
the enumeration used by display yields the fields alphabetically as
`[a, z]`, not in the insertion order `[z, a]` the claim requires (the
underlying container is a `std::map`, ordered by key). -/
theorem c4_counterexample :
    (MVal.fieldAssign
      (MVal.fieldAssign (.structV []) ("z") (.doubleV (Dims.mk2 1 1) (some [.val 1])))
      ("a") (.doubleV (Dims.mk2 1 1) (some [.val 2]))).fieldNames = ["a", "z"] ∧
    (["a", "z"] : List String) ≠ ["z", "a"] :=
  ⟨by decide, by decide⟩

/-- C4 (amended): for every struct built by a sequence of field assignments,
every operation that enumerates the fields yields them in strictly
increasing lexicographic order of the field names (the `std::map` key
order), regardless of the order in which the fields were assigned. -/
theorem c4_amended_sorted_fields (ops : List (String × MVal)) :
    List.Pairwise (fun a b : String => a.data < b.data)
      ((ops.foldl (fun (acc : MVal) p => acc.fieldAssign p.1 p.2)
        (MVal.structV [])).fieldNames) :=
  foldl_fieldAssign_pairwise ops (MVal.structV []) (by simp [MVal.fieldNames])

/-- C5 counterexample: deleting one element of a 2 x 2 double matrix by
linear index produces a 3 x 1 COLUMN vector, whereas the claim requires a
1 x 3 row vector whenever the source has more than one row and more than one
column. -/
theorem c5_counterexample :
    deleteLinear ⟨Dims.mk2 2 2, [.val 1, .val 3, .val 2, .val 4]⟩ [0] =
      ⟨Dims.mk2 3 1, [.val 3, .val 2, .val 4]⟩ ∧
    Dims.mk2 3 1 ≠ Dims.mk2 1 3 :=
  ⟨rfl, by decide⟩

/-- C5 (amended): linear deletion keeps exactly the unselected elements in
column-major (buffer) order — a subsequence of the original buffer — and
shapes the result `1 x n` exactly when the source has one row, otherwise
`n x 1`; in particular a source with more than one row, matrix or column,
yields a column vector. -/
theorem c5_amended_delete_shape (var : DArr) (indices : List Nat) :
    (deleteLinear var indices).dims =
      (if var.dims.rows == 1
       then Dims.mk2 1 (deleteLinear var indices).data.length
       else Dims.mk2 (deleteLinear var indices).data.length 1) ∧
    (deleteLinear var indices).data =
      ((List.range var.dims.numel).zip var.data).filterMap
        (fun p => if indices.contains p.1 then none else some p.2) ∧
    (deleteLinear var indices).data.Sublist var.data := by
  refine ⟨rfl, rfl, ?_⟩
  exact (filterMap_if_sublist (fun i => indices.contains i)
    ((List.range var.dims.numel).zip var.data)).trans
    (map_snd_zip_sublist (List.range var.dims.numel) var.data)

/-- C9: the recursion-depth counter is NOT restored to zero after a
depth-limit error fully unwinds.  `RecursionGuard`'s constructor runs
`if (++depth_ > maxDepth) throw ...`; when it throws, its destructor never
runs, so that one increment survives: for every configured maximum, after
the depth error has propagated out of the outermost call the counter is 1,
contradicting the claim's (and spec's) zero. -/
theorem c9_depth_counter_residue (maxDepth : Nat) :
    callSelfRec maxDepth 0 =
      (.error ("Maximum recursion depth (" ++ toString maxDepth ++ ") exceeded"), 1) ∧
    (1 : Nat) ≠ 0 :=
  ⟨callSelfRec_residue maxDepth 0, by decide⟩

/-- C10: each process constant is installed by the engine constructor as an
ordinary (non-global) variable of the root environment; assigning to the
name overwrites the binding and every subsequent read — including through
the evaluator's identifier lookup after an assignment statement — returns
the assigned value instead of the constant. -/
theorem c10_constants_overridable (name : String) (v : MVal)
    (h : name ∈ engineConstants.map Prod.fst) :
    initialEnv.globals = [] ∧
    (envGet initialEnv name).isSome = true ∧
    envGet (envSet initialEnv name v) name = some v ∧
    (∀ (q : ℚ) (f : Nat),
      (evalExpr (.identE name)
        (execStmt (f + 1) (.assignS name (.numLit (.val q)) true) initialEnv).1).2 =
        .ok (.doubleV (Dims.mk2 1 1) (some [.val q]))) := by
  refine ⟨rfl, ?_, envGet_envSet_initial name v, ?_⟩
  · simp only [engineConstants, List.map_cons, List.map_nil, List.mem_cons,
      List.not_mem_nil, or_false] at h
    rcases h with rfl | rfl | rfl | rfl | rfl | rfl | rfl | rfl | rfl | rfl <;> decide
  · intro q f
    have h1 : (execStmt (f + 1) (.assignS name (.numLit (.val q)) true) initialEnv).1 =
        envSet initialEnv name (.doubleV (Dims.mk2 1 1) (some [.val q])) := rfl
    rw [h1]
    simp only [evalExpr, envGet_envSet_initial]

/-- C1: the parser does NOT implement four distinct logical precedence
levels — `parseOr` serves both `|` (OR) and `||` (OR_SHORT) and `parseAnd`
serves both `&` (AND) and `&&` (AND_SHORT), two levels in all — so
`a && b | c` parses as `(a && b) | c` with root operator `|`, not as the
claimed `a && (b | c)` with root `&&` (the tree the parser test suite also
expects). -/
theorem c1_logical_precedence_two_levels :
    parseExpressionP 100
      [⟨.IDENTIFIER, "a", 0, 0⟩, ⟨.AND_SHORT, "&&", 0, 0⟩, ⟨.IDENTIFIER, "b", 0, 0⟩,
       ⟨.OR, "|", 0, 0⟩, ⟨.IDENTIFIER, "c", 0, 0⟩] =
      .ok (binN ("|") (binN ("&&") (identN ("a")) (identN ("b"))) (identN ("c")), []) ∧
    binN ("&&") (identN ("a")) (binN ("|") (identN ("b")) (identN ("c"))) ≠
      binN ("|") (binN ("&&") (identN ("a")) (identN ("b"))) (identN ("c")) :=
  ⟨rfl, fun hcontra => absurd (congrArg Ast.sv hcontra) (by decide)⟩

/-- C2: every `lhs = []` — including the bare-identifier form `x = []` —
parses to the dedicated DELETE_ASSIGN node, and executing that node raises
`Invalid delete assignment syntax` because its target is not an index
expression (a CALL node); so `x = []` is not an ordinary assignment and does
raise an error (the parser and engine test suites expect ASSIGN and a bound
empty matrix).  `A(1:3) = []` is the indexed form whose target check
succeeds. -/
theorem c2_bare_empty_assign_error :
    parseExpressionStatementP 100
      [⟨.IDENTIFIER, "x", 0, 0⟩, ⟨.ASSIGN, "=", 0, 0⟩, ⟨.LBRACKET, "[", 0, 0⟩,
       ⟨.RBRACKET, "]", 0, 0⟩, ⟨.SEMICOLON, ";", 0, 0⟩] =
      .ok (.mk .DELETE_ASSIGN "" (.val 0) false true [identN ("x")] [] [], []) ∧
    deleteAssignTargetName
      (.mk .DELETE_ASSIGN "" (.val 0) false true [identN ("x")] [] []) =
      .error ("Invalid delete assignment syntax") ∧
    (parseExpressionStatementP 100
        [⟨.IDENTIFIER, "A", 0, 0⟩, ⟨.LPAREN, "(", 0, 0⟩, ⟨.NUMBER, "1", 0, 0⟩,
         ⟨.COLON, ":", 0, 0⟩, ⟨.NUMBER, "3", 0, 0⟩, ⟨.RPAREN, ")", 0, 0⟩,
         ⟨.ASSIGN, "=", 0, 0⟩, ⟨.LBRACKET, "[", 0, 0⟩, ⟨.RBRACKET, "]", 0, 0⟩,
         ⟨.SEMICOLON, ";", 0, 0⟩]).toOption.map
      (fun p => (p.1.nodeTy, deleteAssignTargetName p.1, p.2.length)) =
      some (.DELETE_ASSIGN, .ok ("A"), 0) :=
  ⟨rfl, rfl, rfl⟩

/-- C6 counterexample: writing the 1 x 2 array `[10 20]` to the three
selected positions of a 1 x 3 double variable raises no error: the code
silently fills only the first two selected positions and leaves the third
untouched, although the claim requires an error whenever the counts (3 vs 2)
differ. -/
theorem c6_counterexample :
    execIndexedAssign1 ⟨Dims.mk2 1 3, [.val 0, .val 0, .val 0]⟩ [0, 1, 2]
      (.doubleV (Dims.mk2 1 2) (some [.val 10, .val 20])) =
      .ok ⟨Dims.mk2 1 3, [.val 10, .val 20, .val 0]⟩ ∧
    (3 : Nat) ≠ 2 :=
  ⟨rfl, by decide⟩

/-- C6 (amended): an indexed write with a non-scalar double right-hand side
performs no count check and never raises an error; after growth it writes
exactly the first `min(#selected, #source)` pairs, selected positions in
order against source elements in column-major order, and every other
position keeps its previous value. -/
theorem c6_amended_prefix_only (var : DArr) (idxs : List Nat) (d : Dims)
    (src : List F64) (hns : d.numel ≠ 1) (hnd : idxs.Nodup) :
    execIndexedAssign1 var idxs (.doubleV d (some src)) =
      .ok { growAll var idxs with
            data := writeFirstPairs (growAll var idxs).data idxs src } ∧
    (writeFirstPairs (growAll var idxs).data idxs src).length =
      (growAll var idxs).data.length ∧
    (∀ i, i ∉ idxs.take src.length →
      (writeFirstPairs (growAll var idxs).data idxs src)[i]? =
        (growAll var idxs).data[i]?) ∧
    (∀ (k : Nat) (hk : k < (idxs.zip src).length),
      ((idxs.zip src).get ⟨k, hk⟩).1 < (growAll var idxs).data.length →
      (writeFirstPairs (growAll var idxs).data idxs src)[((idxs.zip src).get ⟨k, hk⟩).1]? =
        some ((idxs.zip src).get ⟨k, hk⟩).2) := by
  have hsc : MVal.isScalar (.doubleV d (some src)) = false := by
    simp [MVal.isScalar, MVal.numel, hns]
  refine ⟨?_, setFold_length _ _, ?_, ?_⟩
  · simp only [execIndexedAssign1, hsc, Bool.false_eq_true, if_false]
  · intro i hi
    refine setFold_getElem_notMem _ _ _ ?_
    rw [map_fst_zip_take]
    exact hi
  · intro k hk hlt
    refine setFold_getElem_nodup _ _ ?_ k hk hlt
    rw [map_fst_zip_take]
    exact hnd.sublist (List.take_sublist _ _)

/-- Witness for c6_amended_prefix_only: the concrete mismatched write of the
counterexample, shown through the theorem's first conjunct. -/
theorem c6_amended_prefix_only_witness :
    (Dims.mk2 1 2).numel ≠ 1 ∧ ([0, 1, 2] : List Nat).Nodup ∧
    execIndexedAssign1 ⟨Dims.mk2 1 3, [.val 0, .val 0, .val 0]⟩ [0, 1, 2]
      (.doubleV (Dims.mk2 1 2) (some [.val 10, .val 20])) =
      .ok { growAll ⟨Dims.mk2 1 3, [.val 0, .val 0, .val 0]⟩ [0, 1, 2] with
            data := writeFirstPairs
              (growAll ⟨Dims.mk2 1 3, [.val 0, .val 0, .val 0]⟩ [0, 1, 2]).data
              [0, 1, 2] [.val 10, .val 20] } :=
  ⟨by decide, by decide,
    (c6_amended_prefix_only ⟨Dims.mk2 1 3, [.val 0, .val 0, .val 0]⟩ [0, 1, 2]
      (Dims.mk2 1 2) [.val 10, .val 20] (by decide) (by decide)).1⟩

/-- C7: after `w = v` (the copy constructor: header copy plus `addRef` on
the shared buffer), any mutation through the copy — an element write (which
detaches first), a resize, or a promotion to complex (which both allocate a
fresh buffer and release the old one) — leaves the elements read through `v`
unchanged; `v`'s own header (kind, dims, buffer pointer) is never touched by
these operations, so its shape is unchanged by construction. -/
theorem c7_copy_on_write (h : Heap) (v : HVal) (b : Nat) (hb : v.buf = some b)
    (hlt : b < h.length) (hrc : 1 ≤ (Heap.bufAt h b).refCount) :
    (∀ i x, readVal (writeElem (copyValue h v).1 (copyValue h v).2 i x).1 v =
      readVal h v) ∧
    (∀ nr nc, readVal (resizeValue (copyValue h v).1 (copyValue h v).2 nr nc).1 v =
      readVal h v) ∧
    readVal (promoteValue (copyValue h v).1 (copyValue h v).2).1 v = readVal h v := by
  have hcv : copyValue h v =
      (Heap.mapAt h b (fun buf => { buf with refCount := buf.refCount + 1 }), v) := by
    simp [copyValue, hb]
  have hlinc : (Heap.mapAt h b
      (fun buf => { buf with refCount := buf.refCount + 1 })).length = h.length := by
    rw [Heap.mapAt]
    exact List.length_set _ _ _
  have hlti : b < (Heap.mapAt h b
      (fun buf => { buf with refCount := buf.refCount + 1 })).length := by
    rw [hlinc]; exact hlt
  have hdec : ∀ buf : Buffer,
      (({ buf with refCount := buf.refCount - 1 } : Buffer)).data = buf.data :=
    fun _ => rfl
  have hincd : ∀ buf : Buffer,
      (({ buf with refCount := buf.refCount + 1 } : Buffer)).data = buf.data :=
    fun _ => rfl
  have hrcinc : (Heap.bufAt (Heap.mapAt h b
      (fun buf => { buf with refCount := buf.refCount + 1 })) b).refCount =
      (Heap.bufAt h b).refCount + 1 := by
    rw [Heap.mapAt, bufAt_set_self _ _ _ hlt]
  have hnotle : ¬ (Heap.bufAt (Heap.mapAt h b
      (fun buf => { buf with refCount := buf.refCount + 1 })) b).refCount ≤ 1 := by
    rw [hrcinc]; omega
  have hldec : (Heap.mapAt (Heap.mapAt h b
      (fun buf => { buf with refCount := buf.refCount + 1 })) b
      (fun buf => { buf with refCount := buf.refCount - 1 })).length = h.length := by
    rw [Heap.mapAt, List.length_set, hlinc]
  refine ⟨?_, ?_, ?_⟩
  · intro i x
    rw [hcv]
    have hw : (writeElem (Heap.mapAt h b
        (fun buf => { buf with refCount := buf.refCount + 1 })) v i x).1 =
        Heap.mapAt
          (Heap.mapAt (Heap.mapAt h b
              (fun buf => { buf with refCount := buf.refCount + 1 })) b
              (fun buf => { buf with refCount := buf.refCount - 1 }) ++
            [⟨(Heap.bufAt (Heap.mapAt h b
                (fun buf => { buf with refCount := buf.refCount + 1 })) b).data, 1⟩])
          (Heap.mapAt (Heap.mapAt h b
              (fun buf => { buf with refCount := buf.refCount + 1 })) b
              (fun buf => { buf with refCount := buf.refCount - 1 })).length
          (fun buf => { buf with data := buf.data.set i x }) := by
      simp only [writeElem, detachValue, hb, if_neg hnotle]
    rw [hw]
    rw [readVal_set_outside _ v b _ hb (by rw [hldec]; exact Nat.ne_of_gt hlt)]
    rw [readVal_append _ v b hb (by rw [hldec]; exact hlt)]
    rw [readVal_mapAt_data _ v b b hb hlti _ hdec]
    exact readVal_mapAt_data h v b b hb hlt _ hincd
  · intro nr nc
    rw [hcv]
    have hr : (resizeValue (Heap.mapAt h b
        (fun buf => { buf with refCount := buf.refCount + 1 })) v nr nc).1 =
        Heap.mapAt (Heap.mapAt h b
            (fun buf => { buf with refCount := buf.refCount + 1 })) b
            (fun buf => { buf with refCount := buf.refCount - 1 }) ++
          [⟨resizeCopy v.dims (Heap.bufAt (Heap.mapAt h b
              (fun buf => { buf with refCount := buf.refCount + 1 })) b).data nr nc, 1⟩] := by
      simp only [resizeValue, hb]
    rw [hr]
    rw [readVal_append _ v b hb (by rw [Heap.mapAt, List.length_set, hlinc]; exact hlt)]
    rw [readVal_mapAt_data _ v b b hb hlti _ hdec]
    exact readVal_mapAt_data h v b b hb hlt _ hincd
  · rw [hcv]
    have hp : (promoteValue (Heap.mapAt h b
        (fun buf => { buf with refCount := buf.refCount + 1 })) v).1 =
        Heap.mapAt (Heap.mapAt h b
            (fun buf => { buf with refCount := buf.refCount + 1 })) b
            (fun buf => { buf with refCount := buf.refCount - 1 }) ++
          [⟨((Heap.bufAt (Heap.mapAt h b
              (fun buf => { buf with refCount := buf.refCount + 1 })) b).data).flatMap
              (fun x => [x, .val 0]), 1⟩] := by
      simp only [promoteValue, hb]
    rw [hp]
    rw [readVal_append _ v b hb (by rw [Heap.mapAt, List.length_set, hlinc]; exact hlt)]
    rw [readVal_mapAt_data _ v b b hb hlti _ hdec]
    exact readVal_mapAt_data h v b b hb hlt _ hincd

/-- Witness for c7_copy_on_write: a one-buffer heap holding `[1, 2]` with
reference count 1, mutated through a copy by an element write. -/
theorem c7_copy_on_write_witness :
    ((⟨.DOUBLE, Dims.mk2 2 1, some 0⟩ : HVal).buf = some 0) ∧
    (0 < ([⟨[.val 1, .val 2], 1⟩] : Heap).length) ∧
    (1 ≤ (Heap.bufAt ([⟨[.val 1, .val 2], 1⟩] : Heap) 0).refCount) ∧
    readVal
      (writeElem
        (copyValue ([⟨[.val 1, .val 2], 1⟩] : Heap) ⟨.DOUBLE, Dims.mk2 2 1, some 0⟩).1
        (copyValue ([⟨[.val 1, .val 2], 1⟩] : Heap) ⟨.DOUBLE, Dims.mk2 2 1, some 0⟩).2
        0 (.val 5)).1
      ⟨.DOUBLE, Dims.mk2 2 1, some 0⟩ =
      readVal ([⟨[.val 1, .val 2], 1⟩] : Heap) ⟨.DOUBLE, Dims.mk2 2 1, some 0⟩ :=
  ⟨rfl, by decide, by decide,
    (c7_copy_on_write ([⟨[.val 1, .val 2], 1⟩] : Heap) ⟨.DOUBLE, Dims.mk2 2 1, some 0⟩
      0 rfl (by decide) (by decide)).1 0 (.val 5)⟩

/-- C8: a break, continue or return signal raised inside a try body
propagates out of the try statement unchanged (the catch body is not run),
while an ordinary runtime error transfers control to the catch body; when
the catch clause names an identifier, that identifier is bound — before the
catch body runs — to a struct whose fields are exactly `identifier` and
`message`. -/
theorem c8_try_catch (f : Nat) (body cb : Stmt) (cn : String) (env env2 : EnvState) :
    (execStmt f body env = (env2, .brkC) →
      execStmt (f + 1) (.tryS body cn (some cb)) env = (env2, .brkC)) ∧
    (execStmt f body env = (env2, .contC) →
      execStmt (f + 1) (.tryS body cn (some cb)) env = (env2, .contC)) ∧
    (execStmt f body env = (env2, .retC) →
      execStmt (f + 1) (.tryS body cn (some cb)) env = (env2, .retC)) ∧
    (∀ msg, execStmt f body env = (env2, .errC msg) → cn ≠ "" →
      execStmt (f + 1) (.tryS body cn (some cb)) env =
        execStmt f cb (envSet env2 cn (errStruct msg))) ∧
    (∀ msg, (errStruct msg).fieldNames = ["identifier", "message"]) := by
  refine ⟨?_, ?_, ?_, ?_, ?_⟩
  · intro hsig
    simp only [execStmt, hsig]
  · intro hsig
    simp only [execStmt, hsig]
  · intro hsig
    simp only [execStmt, hsig]
  · intro msg herr hcn
    simp only [execStmt, herr]
    rw [if_pos hcn]
  · intro msg
    have hc : (("identifier" : String)).data < (("message" : String)).data := by decide
    simp [errStruct, mapInsert, MVal.fieldNames, hc]

/-- Witness for c8_try_catch: a break signal passes through a try/catch with
a named catch clause, and an undefined-variable error reaches the catch body
with the error struct bound. -/
theorem c8_try_catch_witness :
    (execStmt 1 .breakS ⟨[], [], []⟩ = (⟨[], [], []⟩, .brkC)) ∧
    execStmt 2 (.tryS .breakS ("e") (some .returnS)) ⟨[], [], []⟩ =
      (⟨[], [], []⟩, .brkC) ∧
    execStmt 2 (.tryS (.exprS (.identE ("nosuch")) true) ("e") (some .returnS))
        ⟨[], [], []⟩ =
      execStmt 1 .returnS
        (envSet ⟨[], [], []⟩ ("e")
          (errStruct ("Undefined variable or function: nosuch"))) :=
  ⟨rfl,
   (c8_try_catch 1 .breakS .returnS ("e") ⟨[], [], []⟩ ⟨[], [], []⟩).1 rfl,
   (c8_try_catch 1 (.exprS (.identE ("nosuch")) true) .returnS ("e")
      ⟨[], [], []⟩ ⟨[], [], []⟩).2.2.2.1
     ("Undefined variable or function: nosuch") rfl (by decide)⟩

/-- Witness for c10_constants_overridable at the constant `pi`. -/
theorem c10_constants_overridable_witness :
    ("pi" ∈ engineConstants.map Prod.fst) ∧
    (initialEnv.globals = [] ∧
     (envGet initialEnv ("pi")).isSome = true ∧
     envGet (envSet initialEnv ("pi") .emptyV) ("pi") = some .emptyV ∧
     (∀ (q : ℚ) (f : Nat),
       (evalExpr (.identE ("pi"))
         (execStmt (f + 1) (.assignS ("pi") (.numLit (.val q)) true) initialEnv).1).2 =
         .ok (.doubleV (Dims.mk2 1 1) (some [.val q])))) :=
  ⟨by decide, c10_constants_overridable ("pi") .emptyV (by decide)⟩

end MLab
